import Mathlib

/-!
Verification of the streaming candlestick-chart state engine of the
`kline_chart_bybit` crate (file `src/ui/chart.rs`, together with the data
model in `src/models/candle.rs` and `src/models/websocket.rs`).

Prices are `f64` in the source; the embedding models them as exact
rationals (`ℚ`).  All arithmetic reached by the verified claims is exact
in `f64` as well (small integer sums, divisions by small counts), so the
rational model is faithful on those paths; `f64` rounding, infinities and
NaN are outside the model and noted where relevant.
-/

/-- Digit accumulation used by the decimal parser: folds a list of decimal
digit characters into a natural number, most significant first. -/
def digitsToNat (l : List Char) : ℕ :=
  l.foldl (fun a c => 10 * a + (c.toNat - ('0').toNat)) 0

/-- Model of Rust `str::parse::<f64>()` restricted to plain decimal
literals: optional sign, decimal digits, optional fractional part.
The exchange feed delivers prices exactly in this form; exponent forms,
`inf` and `NaN` are rejected by the model (the claims only depend on the
parse succeeding on decimal literals and failing on non-numeric text). -/
def parseF64 (s : String) : Option ℚ :=
  let cs := s.toList
  let signRest : ℚ × List Char :=
    match cs with
    | '-' :: t => (-1, t)
    | '+' :: t => (1, t)
    | t => (1, t)
  let intDigits := signRest.2.takeWhile Char.isDigit
  let rest := signRest.2.dropWhile Char.isDigit
  match rest with
  | [] =>
      if intDigits.isEmpty then none
      else some (signRest.1 * (digitsToNat intDigits : ℚ))
  | '.' :: fracDigits =>
      if fracDigits.all Char.isDigit && !(intDigits.isEmpty && fracDigits.isEmpty) then
        some (signRest.1 *
          ((digitsToNat intDigits : ℚ) +
            (digitsToNat fracDigits : ℚ) / (10 ^ fracDigits.length)))
      else none
  | _ => none

/-- `KlineData` from `src/models/websocket.rs`.  The source field names
`end` and `open` are Lean keywords and are embedded as `end_` and `open_`.
`i64` fields are modelled as `ℤ`; price fields are the raw strings of the
feed, exactly as in the source. -/
structure KlineData where
  start : ℤ
  end_ : ℤ
  interval : String
  open_ : String
  close : String
  high : String
  low : String
  volume : String
  turnover : String
  confirm : Bool
  timestamp : ℤ
deriving DecidableEq

/-- `Candle` from `src/models/candle.rs` (field `open` embedded as
`open_`). -/
structure Candle where
  open_ : ℚ
  high : ℚ
  low : ℚ
  close : ℚ
deriving DecidableEq

/-- `Candle::from_kline_data`: parses the four price strings, returning
`none` if any fails (the `?` operator on `parse().ok()`). -/
def Candle.from_kline_data (data : KlineData) : Option Candle := do
  let o ← parseF64 data.open_
  let h ← parseF64 data.high
  let l ← parseF64 data.low
  let c ← parseF64 data.close
  pure { open_ := o, high := h, low := l, close := c }

/-- `Candle::is_bullish`: `close >= open`. -/
def Candle.is_bullish (c : Candle) : Bool := c.close ≥ c.open_

/-- Modelled from the spec: the `constants` module of the crate is not in
the sources; §3 of the spec gives the moving-average span `WINDOW_SIZE`
default 50. -/
def MA_WINDOW_SIZE : ℕ := 50

/-- Modelled from the spec: the `constants` module of the crate is not in
the sources; §6 of the spec gives `VISIBLE_RANGE ≤ CAPACITY`, default
`CAPACITY` 50 and in the default configuration the two are equal. -/
def VISIBLE_RANGE : ℕ := 50

/-- `CandlestickChart` from `src/ui/chart.rs`: the bar window, the
configured capacity, and the moving-average series (`VecDeque<f64>`
modelled as a list with front at the head). -/
structure CandlestickChart where
  candles : List Candle
  visible_range : ℕ
  ma50_values : List ℚ
deriving DecidableEq

/-- `CandlestickChart::new`. -/
def CandlestickChart.new (visible_range : ℕ) : CandlestickChart :=
  { candles := [], visible_range := visible_range, ma50_values := [] }

/-- The `while self.ma50_values.len() > self.visible_range { pop_front }`
loop at the end of `calculate_ma50`: drops elements from the front until
the length is at most `cap`. -/
def trimFront (cap : ℕ) (l : List ℚ) : List ℚ :=
  l.drop (l.length - cap)

/-- `CandlestickChart::calculate_ma50`, parameterised by the
`MA_WINDOW_SIZE` constant `maW` (the source reads it from the missing
`constants` module; the spec calls it `WINDOW_SIZE` and exercises it both
at its default 50 and at 3).  `saturating_sub` is Nat subtraction.  The
division is `ℚ` division; in the source the divisor is zero only when
`candles` is empty, a state in which the source never calls this private
method (proved below for the update path). -/
def calculate_ma50W (maW : ℕ) (s : CandlestickChart) : CandlestickChart :=
  let start_idx := s.candles.length - maW
  let sum := ((s.candles.drop start_idx).map Candle.close).sum
  let count := s.candles.length - start_idx
  let ma50 := sum / (count : ℚ)
  { s with ma50_values := trimFront s.visible_range (s.ma50_values ++ [ma50]) }

/-- `calculate_ma50` at the crate's constant. -/
def calculate_ma50 : CandlestickChart → CandlestickChart :=
  calculate_ma50W MA_WINDOW_SIZE

/-- The window mutation inside `update_from_kline`, after a candle has
been parsed: on a confirmed bar, evict the front if at capacity
(`self.candles.remove(0)`, embedded as `tail` — on an empty vector Rust
`remove(0)` panics, and that branch requires `len ≥ visible_range`, so for
a positive capacity the vector is nonempty there) and push; on an
unconfirmed bar, overwrite the last candle in place, or push if empty. -/
def windowStep (s : CandlestickChart) (candle : Candle) (confirm : Bool) :
    CandlestickChart :=
  if confirm then
    let cs := if s.candles.length ≥ s.visible_range then s.candles.tail else s.candles
    { s with candles := cs ++ [candle] }
  else
    if s.candles.isEmpty then { s with candles := [candle] }
    else { s with candles := s.candles.dropLast ++ [candle] }

/-- The body of the `if let Some(candle)` branch of `update_from_kline`:
window mutation followed by the moving-average recomputation. -/
def applyBarW (maW : ℕ) (s : CandlestickChart) (candle : Candle)
    (confirm : Bool) : CandlestickChart :=
  calculate_ma50W maW (windowStep s candle confirm)

/-- `CandlestickChart::update_from_kline`, parameterised by the
moving-average span: if the kline parses, fold it in; otherwise the state
is untouched. -/
def update_from_klineW (maW : ℕ) (s : CandlestickChart) (kd : KlineData) :
    CandlestickChart :=
  match Candle.from_kline_data kd with
  | some candle => applyBarW maW s candle kd.confirm
  | none => s

/-- `update_from_kline` at the crate's constant. -/
def update_from_kline : CandlestickChart → KlineData → CandlestickChart :=
  update_from_klineW MA_WINDOW_SIZE

/-- Folds a sequence of feed messages into a fresh chart of capacity
`cap`, in feed-delivery order. -/
def runUpdates (maW cap : ℕ) (kds : List KlineData) : CandlestickChart :=
  kds.foldl (update_from_klineW maW) (CandlestickChart.new cap)

/-- Folds a sequence of already-parsed finalized bars into a fresh chart
of capacity `cap`. -/
def runFinal (maW cap : ℕ) (bars : List Candle) : CandlestickChart :=
  bars.foldl (fun s b => applyBarW maW s b true) (CandlestickChart.new cap)

/-- The ratatui colors used by the chart. -/
inductive ChartColor where
  | green
  | red
  | yellow
deriving DecidableEq

/-- A drawable primitive handed to the canvas: the `ctx.draw(&Line)`,
`ctx.draw(&Points)` and `ctx.print` calls of the source, as pure data. -/
inductive DrawPrim where
  | line (x1 y1 x2 y2 : ℚ) (color : ChartColor)
  | points (coords : List (ℚ × ℚ)) (color : ChartColor)
  | printText (x y : ℚ) (text : String)
deriving DecidableEq

/-- Rust `as i32` on an `f64`: truncation toward zero (saturation at the
`i32` bounds is not modelled; the chart's price coordinates never reach
them). -/
def f64TruncToI32 (q : ℚ) : ℤ :=
  if 0 ≤ q then ⌊q⌋ else ⌈q⌉

/-- The inclusive integer range `a..=b` with `step_by(1)`. -/
def intRangeIncl (a b : ℤ) : List ℤ :=
  (List.range (b - a + 1).toNat).map (fun i => a + (i : ℤ))

/-- Model of Rust `format!` with `{:.2}` on an `f64`: two decimal places,
rounding half away from zero (the claims never inspect formatted label
text, only the fixed waiting-placeholder string). -/
def fmt2 (q : ℚ) : String :=
  let n := (⌊|q| * 100 + 1 / 2⌋).toNat
  let ip := n / 100
  let fp := n % 100
  (if q < 0 then "-" else "") ++ toString ip ++ "." ++
    (if fp < 10 then "0" else "") ++ toString fp

/-- `CandlestickChart::draw_candle_wick`. -/
def draw_candle_wick (x width : ℚ) (candle : Candle) (color : ChartColor) :
    List DrawPrim :=
  [.line (x + width / 2) candle.low (x + width / 2) candle.high color]

/-- `CandlestickChart::draw_flat_candle`: a single horizontal line at the
body price. -/
def draw_flat_candle (x width price : ℚ) (color : ChartColor) :
    List DrawPrim :=
  [.line x price (x + width) price color]

/-- `CandlestickChart::draw_filled_candle`: corner points plus a stack of
horizontal fill lines every 0.01 price units. -/
def draw_filled_candle (x width top bottom : ℚ) (color : ChartColor) :
    List DrawPrim :=
  .points [(x, bottom), (x + width, bottom), (x + width, top), (x, top)] color ::
    (intRangeIncl (f64TruncToI32 (bottom * 100)) (f64TruncToI32 (top * 100))).map
      (fun y => .line x ((y : ℚ) / 100) (x + width) ((y : ℚ) / 100) color)

/-- `CandlestickChart::draw_candle_body`: orders open/close by bullishness
and dispatches on the 0.001 flatness epsilon (`0.001` in the source is an
`f64` literal; the model uses the exact rational 1/1000). -/
def draw_candle_body (x width : ℚ) (candle : Candle) (color : ChartColor) :
    List DrawPrim :=
  let tb : ℚ × ℚ :=
    if candle.is_bullish then (candle.close, candle.open_)
    else (candle.open_, candle.close)
  if |tb.1 - tb.2| < 1 / 1000 then draw_flat_candle x width tb.1 color
  else draw_filled_candle x width tb.1 tb.2 color

/-- `CandlestickChart::draw_candlesticks`: one wick and one body per
visible candle, at integer x-slots in chronological order. -/
def draw_candlesticks (candles : List Candle) : List DrawPrim :=
  (candles.enum.map (fun ic =>
    let color := if ic.2.is_bullish then ChartColor.green else ChartColor.red
    draw_candle_wick (ic.1 : ℚ) (8 / 10) ic.2 color ++
      draw_candle_body (ic.1 : ℚ) (8 / 10) ic.2 color)).flatten

/-- `CandlestickChart::calculate_price_range`: min of lows and max of
highs.  The source folds from `f64::INFINITY` / `NEG_INFINITY`; on the
empty list that yields `(∞, -∞)`, which `ℚ` cannot represent — `draw`
only calls this on a nonempty slice, where the fold equals the plain
min/max below. -/
def calculate_price_range (candles : List Candle) : ℚ × ℚ :=
  match candles with
  | [] => (0, 0)
  | c :: cs =>
      (cs.foldl (fun a b => min a b.low) c.low,
       cs.foldl (fun a b => max a b.high) c.high)

/-- `CandlestickChart::calculate_y_bounds`: 10% padding on each side. -/
def calculate_y_bounds (min_price max_price : ℚ) : ℚ × ℚ :=
  let price_range := max_price - min_price
  let padding := price_range * (1 / 10)
  (min_price - padding, max_price + padding)

/-- `CandlestickChart::draw_price_labels`: six labels at five evenly
spaced intervals. -/
def draw_price_labels (x y_min y_max : ℚ) : List DrawPrim :=
  (List.range 6).map (fun i =>
    let price := y_min + (y_max - y_min) * ((i : ℚ) / 5)
    .printText (x + 1 / 2) price (fmt2 price))

/-- `CandlestickChart::draw_ma50_line`: a polyline over consecutive
moving-average values (the loop from `i = 1`; both `get` calls always
succeed, modelled by zipping the series with its own tail). -/
def draw_ma50_line (ms : List ℚ) : List DrawPrim :=
  ((ms.zip ms.tail).enum.map (fun ipc =>
    DrawPrim.line (ipc.1 : ℚ) ipc.2.1 ((ipc.1 : ℚ) + 1) ipc.2.2 ChartColor.yellow))

/-- `CandlestickChart::draw_indicators`: current close and current MA
labels near the top. -/
def draw_indicators (candles : List Candle) (ms : List ℚ) (y_max : ℚ) :
    List DrawPrim :=
  match candles.getLast? with
  | none => []
  | some last =>
      .printText 0 (y_max * (95 / 100)) ("Current: " ++ fmt2 last.close) ::
        (match ms.getLast? with
         | none => []
         | some lastMa => [.printText 0 (y_max * (90 / 100)) ("MA50: " ++ fmt2 lastMa)])

/-- `CandlestickChart::draw` as a pure render plan: the visible slice, the
empty-state waiting placeholder, and otherwise labels, candlesticks, the
MA polyline and the indicator labels, in paint order. -/
def draw (s : CandlestickChart) : List DrawPrim :=
  let visible_candles :=
    if s.candles.isEmpty then []
    else s.candles.drop (s.candles.length - s.visible_range)
  if visible_candles.isEmpty then
    [.printText 0 (1 / 2) "Waiting for data..."]
  else
    let mm := calculate_price_range visible_candles
    let yb := calculate_y_bounds mm.1 mm.2
    draw_price_labels (visible_candles.length : ℚ) yb.1 yb.2 ++
      draw_candlesticks visible_candles ++
      draw_ma50_line s.ma50_values ++
      draw_indicators visible_candles s.ma50_values yb.2

/-- A bar whose four prices all equal `c`; only the close participates in
the moving average. -/
def mkCandle (c : ℚ) : Candle := { open_ := c, high := c, low := c, close := c }

/-- A well-formed kline message with all four prices `"1"` and
`confirm := false` (a partial update of the still-open bar). -/
def sampleKline : KlineData :=
  { start := 0, end_ := 0, interval := "1", open_ := "1", close := "1",
    high := "1", low := "1", volume := "0", turnover := "0",
    confirm := false, timestamp := 0 }

/-- A kline message whose `open` field is not numeric. -/
def badKline : KlineData :=
  { start := 0, end_ := 0, interval := "1", open_ := "abc", close := "1",
    high := "1", low := "1", volume := "0", turnover := "0",
    confirm := true, timestamp := 0 }

/-- A chart holding the two bars `[mkCandle 1, mkCandle 2]`, capacity 4. -/
def twoBarChart : CandlestickChart :=
  { candles := [mkCandle 1, mkCandle 2], visible_range := 4, ma50_values := [] }

/-- An empty chart with capacity 4. -/
def emptyChart4 : CandlestickChart :=
  { candles := [], visible_range := 4, ma50_values := [] }

/-- A chart in warm-up: two bars with closes 10 and 20, capacity 50. -/
def warmupChart : CandlestickChart :=
  { candles := [mkCandle 10, mkCandle 20], visible_range := 50, ma50_values := [] }

/-- `windowStep` never touches the configured capacity. -/
lemma windowStep_visible_range (s : CandlestickChart) (c : Candle) (f : Bool) :
    (windowStep s c f).visible_range = s.visible_range := by
  unfold windowStep; split <;> [rfl; (split <;> rfl)]

/-- `windowStep` never touches the moving-average series. -/
lemma windowStep_ma50 (s : CandlestickChart) (c : Candle) (f : Bool) :
    (windowStep s c f).ma50_values = s.ma50_values := by
  unfold windowStep; split <;> [rfl; (split <;> rfl)]

/-- `calculate_ma50` never touches the bar window. -/
lemma calcMA_candles (maW : ℕ) (s : CandlestickChart) :
    (calculate_ma50W maW s).candles = s.candles := rfl

/-- `calculate_ma50` never touches the configured capacity. -/
lemma calcMA_visible_range (maW : ℕ) (s : CandlestickChart) :
    (calculate_ma50W maW s).visible_range = s.visible_range := rfl

/-- One `calculate_ma50` call appends one value and then trims to the
capacity, so the series length becomes `min (old + 1) capacity`. -/
lemma calcMA_ma_length (maW : ℕ) (s : CandlestickChart) :
    (calculate_ma50W maW s).ma50_values.length =
      min (s.ma50_values.length + 1) s.visible_range := by
  simp [calculate_ma50W, trimFront]; omega

/-- Folding one bar preserves the configured capacity. -/
lemma applyBar_visible_range (maW : ℕ) (s : CandlestickChart) (c : Candle) (f : Bool) :
    (applyBarW maW s c f).visible_range = s.visible_range := by
  simp [applyBarW, calcMA_visible_range, windowStep_visible_range]

/-- Folding one bar grows the moving-average series to
`min (old + 1) capacity`, whether or not the bar was final. -/
lemma applyBar_ma_length (maW : ℕ) (s : CandlestickChart) (c : Candle) (f : Bool) :
    (applyBarW maW s c f).ma50_values.length =
      min (s.ma50_values.length + 1) s.visible_range := by
  simp [applyBarW, calcMA_ma_length, windowStep_ma50, windowStep_visible_range]

/-- Moving-average series length after a whole feed: one value per
parseable message, trimmed at the capacity. -/
lemma foldl_ma_length (maW cap : ℕ) :
    ∀ (kds : List KlineData) (s : CandlestickChart), s.visible_range = cap →
      s.ma50_values.length ≤ cap →
      ((kds.foldl (update_from_klineW maW) s).ma50_values.length =
        min (s.ma50_values.length +
          kds.countP (fun kd => (Candle.from_kline_data kd).isSome)) cap) := by
  intro kds
  induction kds with
  | nil => intro s hv hle; simp; omega
  | cons kd rest ih =>
      intro s hv hle
      simp only [List.foldl_cons, List.countP_cons]
      cases hkd : Candle.from_kline_data kd with
      | none =>
          have hstep : update_from_klineW maW s kd = s := by
            simp [update_from_klineW, hkd]
          rw [hstep, ih s hv hle]
          simp
      | some c =>
          have hstep : update_from_klineW maW s kd = applyBarW maW s c kd.confirm := by
            simp [update_from_klineW, hkd]
          rw [hstep, ih _ (by rw [applyBar_visible_range]; exact hv)
            (by rw [applyBar_ma_length, hv]; omega), applyBar_ma_length, hv]
          simp
          omega

/-- The window mutation keeps the bar count within a positive capacity. -/
lemma windowStep_length_le (s : CandlestickChart) (c : Candle) (f : Bool)
    (hcap : 1 ≤ s.visible_range) (hle : s.candles.length ≤ s.visible_range) :
    (windowStep s c f).candles.length ≤ s.visible_range := by
  unfold windowStep
  cases f with
  | true =>
      simp only [if_true]
      by_cases hge : s.candles.length ≥ s.visible_range
      · simp [hge]
        omega
      · simp [hge]
        omega
  | false =>
      by_cases hemp : s.candles.isEmpty
      · simp [hemp]
        omega
      · simp [hemp]
        have : s.candles.length ≥ 1 := by
          cases hc : s.candles with
          | nil => rw [hc] at hemp; simp at hemp
          | cons a l => simp [hc]
        omega

/-- The window bound is preserved by any sequence of feed messages. -/
lemma foldl_candles_le (maW cap : ℕ) (hcap : 1 ≤ cap) :
    ∀ (kds : List KlineData) (s : CandlestickChart), s.visible_range = cap →
      s.candles.length ≤ cap →
      (kds.foldl (update_from_klineW maW) s).candles.length ≤ cap := by
  intro kds
  induction kds with
  | nil => intro s hv hle; simpa using hle
  | cons kd rest ih =>
      intro s hv hle
      simp only [List.foldl_cons]
      cases hkd : Candle.from_kline_data kd with
      | none =>
          have hstep : update_from_klineW maW s kd = s := by
            simp [update_from_klineW, hkd]
          rw [hstep]; exact ih s hv hle
      | some c =>
          have hstep : update_from_klineW maW s kd = applyBarW maW s c kd.confirm := by
            simp [update_from_klineW, hkd]
          rw [hstep]
          refine ih _ (by rw [applyBar_visible_range]; exact hv) ?_
          rw [applyBarW, calcMA_candles, ← hv]
          exact windowStep_length_le s c kd.confirm (hv ▸ hcap) (hv ▸ hle)

/-- Window contents after folding finalized bars: always the most recent
`cap`-length tail of starting contents plus inputs (for positive `cap`). -/
lemma runFinal_aux (maW cap : ℕ) (hcap : 1 ≤ cap) :
    ∀ (bars : List Candle) (s : CandlestickChart), s.visible_range = cap →
      s.candles.length ≤ cap →
      (bars.foldl (fun t b => applyBarW maW t b true) s).candles =
        (s.candles ++ bars).drop (s.candles.length + bars.length - cap) := by
  intro bars
  induction bars with
  | nil =>
      intro s hv hle
      simp [Nat.sub_eq_zero_of_le, hle]
  | cons b rest ih =>
      intro s hv hle
      simp only [List.foldl_cons]
      by_cases hge : s.visible_range ≤ s.candles.length
      · -- at capacity: the front candle is evicted
        have hlen : s.candles.length = cap := by omega
        obtain ⟨hd, tl, hc⟩ : ∃ hd tl, s.candles = hd :: tl := by
          cases hcs : s.candles with
          | nil => rw [hcs] at hlen; simp at hlen; omega
          | cons x xs => exact ⟨x, xs, rfl⟩
        have htl : tl.length + 1 = cap := by rw [hc] at hlen; simpa using hlen
        have hgel : s.visible_range ≤ tl.length + 1 := by omega
        have hstep : (applyBarW maW s b true).candles = tl ++ [b] := by
          simp [applyBarW, calcMA_candles, windowStep, hc, hgel]
        have ihlen : (applyBarW maW s b true).candles.length ≤ cap := by
          rw [hstep]; simp; omega
        have hrec := ih (applyBarW maW s b true)
          (by rw [applyBar_visible_range]; exact hv) ihlen
        rw [hrec, hstep, hc]
        simp only [List.append_assoc, List.singleton_append, List.cons_append,
          List.length_append, List.length_cons, List.length_nil]
        rw [show tl.length + 1 + rest.length - cap = rest.length from by omega,
          show tl.length + 1 + (rest.length + 1) - cap = rest.length + 1 from by omega,
          List.drop_succ_cons]
        simp
      · -- below capacity: plain append
        have hstep : (applyBarW maW s b true).candles = s.candles ++ [b] := by
          simp [applyBarW, calcMA_candles, windowStep, hge]
        have ihlen : (applyBarW maW s b true).candles.length ≤ cap := by
          rw [hstep]; simp; omega
        have hrec := ih (applyBarW maW s b true)
          (by rw [applyBar_visible_range]; exact hv) ihlen
        rw [hrec, hstep]
        simp only [List.append_assoc, List.singleton_append, List.cons_append,
          List.length_append, List.length_cons, List.length_nil]
        congr 1
        omega

/-- Dropping fewer elements than the length keeps the last element. -/
lemma getLast?_drop_of_lt {α : Type} (l : List α) (n : ℕ) (h : n < l.length) :
    (l.drop n).getLast? = l.getLast? := by
  induction l generalizing n with
  | nil => simp at h
  | cons a t ih =>
      cases n with
      | zero => simp
      | succ m =>
          rw [List.drop_succ_cons]
          have hm : m < t.length := by simpa using h
          rw [ih m hm]
          cases ht : t with
          | nil => rw [ht] at hm; simp at hm
          | cons x xs => simp [List.getLast?_cons_cons]

/-- Every branch of the window mutation ends with a bar appended, so the
window is never empty afterwards. -/
lemma windowStep_ne_nil (s : CandlestickChart) (c : Candle) (f : Bool) :
    (windowStep s c f).candles ≠ [] := by
  unfold windowStep
  cases f with
  | true => simp
  | false =>
      by_cases hemp : s.candles.isEmpty
      · simp [hemp]
      · simp [hemp]

/-- If any of the four price strings fails to parse, the whole candle
parse fails. -/
lemma from_kline_data_none (kd : KlineData)
    (h : parseF64 kd.open_ = none ∨ parseF64 kd.high = none ∨
         parseF64 kd.low = none ∨ parseF64 kd.close = none) :
    Candle.from_kline_data kd = none := by
  unfold Candle.from_kline_data
  cases ho : parseF64 kd.open_ with
  | none => simp
  | some o =>
      cases hh : parseF64 kd.high with
      | none => simp
      | some hi =>
          cases hl : parseF64 kd.low with
          | none => simp
          | some lo =>
              cases hc : parseF64 kd.close with
              | none => simp
              | some cl =>
                  rw [ho, hh, hl, hc] at h
                  rcases h with h | h | h | h <;> simp at h

/-- C1 (counterexample): the lockstep invariant fails on the code.  Two
parseable non-final updates from the empty chart leave one bar in the
window but two values in the moving-average series, because
`calculate_ma50` appends a value on every update, final or not. -/
theorem C1_lockstep_counterexample :
    (Candle.from_kline_data sampleKline).isSome = true ∧
    ¬ ((runUpdates MA_WINDOW_SIZE VISIBLE_RANGE [sampleKline, sampleKline]).ma50_values.length =
       (runUpdates MA_WINDOW_SIZE VISIBLE_RANGE [sampleKline, sampleKline]).candles.length) := by
  constructor
  · decide
  · decide

/-- C1 (amended): after any sequence of updates applied through
`update_from_kline` starting from a fresh chart, the length of the
moving-average series equals the number of updates that folded a
parseable bar, capped at the configured capacity — one value is appended
per folded update regardless of finality, so the series length matches
the window length only when every folded update is final. -/
theorem C1_lockstep_amended (maW cap : ℕ) (kds : List KlineData) :
    (runUpdates maW cap kds).ma50_values.length =
      min (kds.countP (fun kd => (Candle.from_kline_data kd).isSome)) cap := by
  have := foldl_ma_length maW cap kds (CandlestickChart.new cap) rfl
    (by simp [CandlestickChart.new])
  simpa [runUpdates, CandlestickChart.new] using this

/-- C2: from a window `[A, B]` below capacity, a non-final update with bar
`C` replaces the last bar giving `[A, C]`, a final update appends giving
`[A, B, C]`, and a non-final update on an empty window appends giving
`[C]`. -/
theorem C2_replace_vs_append (maW cap : ℕ) (A B C : Candle) (ms : List ℚ)
    (h : 2 < cap) :
    (applyBarW maW { candles := [A, B], visible_range := cap, ma50_values := ms } C false).candles = [A, C] ∧
    (applyBarW maW { candles := [A, B], visible_range := cap, ma50_values := ms } C true).candles = [A, B, C] ∧
    (applyBarW maW { candles := [], visible_range := cap, ma50_values := ms } C false).candles = [C] := by
  refine ⟨?_, ?_, ?_⟩
  · simp [applyBarW, calcMA_candles, windowStep]
  · simp [applyBarW, calcMA_candles, windowStep]
    rw [if_neg (by omega)]
    rfl
  · simp [applyBarW, calcMA_candles, windowStep]

/-- C2 (witness): the three window shapes at concrete bars with capacity
4. -/
theorem C2_replace_vs_append_witness :
    2 < 4 ∧
    ((applyBarW 50 twoBarChart (mkCandle 3) false).candles = [mkCandle 1, mkCandle 3] ∧
     (applyBarW 50 twoBarChart (mkCandle 3) true).candles = [mkCandle 1, mkCandle 2, mkCandle 3] ∧
     (applyBarW 50 emptyChart4 (mkCandle 3) false).candles = [mkCandle 3]) :=
  ⟨by norm_num,
    C2_replace_vs_append 50 4 (mkCandle 1) (mkCandle 2) (mkCandle 3) [] (by norm_num)⟩

/-- C3: for every sequence of updates applied to a fresh chart with a
positive capacity, the number of retained bars stays at most the
capacity. -/
theorem C3_window_bound (maW cap : ℕ) (kds : List KlineData) (h : 1 ≤ cap) :
    (runUpdates maW cap kds).candles.length ≤ cap :=
  foldl_candles_le maW cap h kds (CandlestickChart.new cap) rfl
    (by simp [CandlestickChart.new])

/-- C3 (witness): one update against capacity 1. -/
theorem C3_window_bound_witness :
    1 ≤ 1 ∧ (runUpdates 50 1 [sampleKline]).candles.length ≤ 1 :=
  ⟨le_refl 1, C3_window_bound 50 1 [sampleKline] (le_refl 1)⟩

/-- C4: after a sequence of finalized bar updates longer than the
(positive) capacity, the retained window is exactly the most recent
capacity-length tail of the input sequence — the chronologically oldest
bar is evicted each time. -/
theorem C4_eviction_order (maW cap : ℕ) (bars : List Candle)
    (h1 : 1 ≤ cap) (h2 : cap < bars.length) :
    (runFinal maW cap bars).candles = bars.drop (bars.length - cap) ∧
    (runFinal maW cap bars).candles.length = cap := by
  have := runFinal_aux maW cap h1 bars (CandlestickChart.new cap) rfl
    (by simp [CandlestickChart.new])
  constructor
  · simpa [runFinal, CandlestickChart.new] using this
  · have h3 : (runFinal maW cap bars).candles = bars.drop (bars.length - cap) := by
      simpa [runFinal, CandlestickChart.new] using this
    rw [h3]
    simp
    omega

/-- C4 (witness): two finalized bars against capacity 1 retain only the
last one. -/
theorem C4_eviction_order_witness :
    (1 ≤ 1 ∧ 1 < ([mkCandle 1, mkCandle 2] : List Candle).length) ∧
    ((runFinal 50 1 [mkCandle 1, mkCandle 2]).candles =
       ([mkCandle 1, mkCandle 2] : List Candle).drop
         (([mkCandle 1, mkCandle 2] : List Candle).length - 1) ∧
     (runFinal 50 1 [mkCandle 1, mkCandle 2]).candles.length = 1) :=
  ⟨⟨le_refl 1, by norm_num⟩,
    C4_eviction_order 50 1 [mkCandle 1, mkCandle 2] (le_refl 1) (by norm_num)⟩

/-- C5: with fewer bars than the moving-average span (and a positive
capacity), the value pushed by the recompute step is the arithmetic mean
of the closes of all bars present — a growing-window average, not an
undefined or zero value. -/
theorem C5_warmup_mean (maW : ℕ) (s : CandlestickChart)
    (h0 : s.candles ≠ []) (hlt : s.candles.length < maW)
    (hcap : 1 ≤ s.visible_range) :
    (calculate_ma50W maW s).ma50_values.getLast? =
      some ((s.candles.map Candle.close).sum / (s.candles.length : ℚ)) := by
  have hidx : s.candles.length - maW = 0 := by omega
  have hlen1 : 1 ≤ s.candles.length := List.length_pos.mpr h0
  simp only [calculate_ma50W, hidx, List.drop_zero, Nat.sub_zero, trimFront]
  rw [getLast?_drop_of_lt]
  · simp
  · simp
    omega

/-- C5 (witness): span 50 with exactly two bars, closes 10 and 20, gives
moving average 15. -/
theorem C5_warmup_mean_witness :
    (warmupChart.candles ≠ [] ∧ warmupChart.candles.length < 50 ∧
      1 ≤ warmupChart.visible_range) ∧
    (calculate_ma50W 50 warmupChart).ma50_values.getLast? = some 15 :=
  ⟨⟨by simp [warmupChart], by norm_num [warmupChart], by norm_num [warmupChart]⟩,
    (C5_warmup_mean 50 warmupChart (by simp [warmupChart]) (by norm_num [warmupChart])
      (by norm_num [warmupChart])).trans (by norm_num [warmupChart, mkCandle])⟩

/-- C6: with moving-average span 3, finalized closes 10, 20, 30 produce
the series [10, 15, 20] (third appended value 20), and a fourth finalized
close 40 appends 30 (the close 10 leaves the averaging span). -/
theorem C6_moving_average_values :
    (runFinal 3 50 [mkCandle 10, mkCandle 20, mkCandle 30]).ma50_values = [10, 15, 20] ∧
    (runFinal 3 50 [mkCandle 10, mkCandle 20, mkCandle 30, mkCandle 40]).ma50_values =
      [10, 15, 20, 30] := by
  constructor <;>
    norm_num [runFinal, applyBarW, calculate_ma50W, windowStep, trimFront,
      CandlestickChart.new, mkCandle]

/-- C7: totality of the update path for a positive span and capacity.
All operations are total functions by construction; in addition, the
`remove(0)` branch is only reached with a nonempty window, the window is
nonempty after every window mutation, the moving-average slice start
index is in bounds, and the divisor of the moving-average division is
positive whenever it is reached after an update. -/
theorem C7_update_path_total (maW : ℕ) (s : CandlestickChart) (c : Candle)
    (f : Bool) (hW : 1 ≤ maW) (hcap : 1 ≤ s.visible_range) :
    (s.visible_range ≤ s.candles.length → s.candles ≠ []) ∧
    (windowStep s c f).candles ≠ [] ∧
    (windowStep s c f).candles.length - maW ≤ (windowStep s c f).candles.length ∧
    0 < (windowStep s c f).candles.length - ((windowStep s c f).candles.length - maW) := by
  have hne := windowStep_ne_nil s c f
  have hpos : 1 ≤ (windowStep s c f).candles.length := List.length_pos.mpr hne
  refine ⟨?_, hne, by omega, by omega⟩
  intro hge
  have : 1 ≤ s.candles.length := by omega
  exact List.length_pos.mp this

/-- C7 (witness): the totality facts at a concrete final update on a
fresh chart of capacity 50 with span 50. -/
theorem C7_update_path_total_witness :
    ((1 : ℕ) ≤ 50 ∧ 1 ≤ (CandlestickChart.new 50).visible_range) ∧
    (((CandlestickChart.new 50).visible_range ≤ (CandlestickChart.new 50).candles.length →
        (CandlestickChart.new 50).candles ≠ []) ∧
     (windowStep (CandlestickChart.new 50) (mkCandle 1) true).candles ≠ [] ∧
     (windowStep (CandlestickChart.new 50) (mkCandle 1) true).candles.length - 50 ≤
       (windowStep (CandlestickChart.new 50) (mkCandle 1) true).candles.length ∧
     0 < (windowStep (CandlestickChart.new 50) (mkCandle 1) true).candles.length -
       ((windowStep (CandlestickChart.new 50) (mkCandle 1) true).candles.length - 50)) :=
  ⟨⟨by norm_num, by norm_num [CandlestickChart.new]⟩,
    C7_update_path_total 50 (CandlestickChart.new 50) (mkCandle 1) true (by norm_num)
      (by norm_num [CandlestickChart.new])⟩

/-- C8: a chart to which zero updates have been applied renders as the
single centered "waiting" label, with no price-range computation
reached. -/
theorem C8_empty_state_waiting (maW cap : ℕ) :
    draw (runUpdates maW cap []) =
      [DrawPrim.printText 0 (1 / 2) ("Waiting for data...")] := by
  simp [draw, runUpdates, CandlestickChart.new]

/-- C9: a bar whose open and close differ by less than the epsilon 1/1000
renders as a single flat horizontal line at the body price (the larger of
open and close), and otherwise as the filled body. -/
theorem C9_flat_bar_rendering (x width : ℚ) (cd : Candle) (col : ChartColor) :
    draw_candle_body x width cd col =
      if |cd.open_ - cd.close| < 1 / 1000 then
        [DrawPrim.line x (max cd.open_ cd.close) (x + width)
          (max cd.open_ cd.close) col]
      else
        draw_filled_candle x width (max cd.open_ cd.close)
          (min cd.open_ cd.close) col := by
  unfold draw_candle_body Candle.is_bullish draw_flat_candle
  by_cases h : cd.open_ ≤ cd.close
  · simp only [decide_eq_true_eq, if_pos h]
    rw [abs_sub_comm, max_eq_right h, min_eq_left h]
  · push_neg at h
    have h' : ¬ (cd.open_ ≤ cd.close) := not_le.mpr h
    simp only [decide_eq_true_eq, ge_iff_le, if_neg h']
    rw [max_eq_left h.le, min_eq_right h.le]

/-- C10: if any of the four price fields of a kline fails to parse,
`update_from_kline` leaves the entire chart state unchanged — window and
moving-average series included. -/
theorem C10_malformed_update_atomic (maW : ℕ) (s : CandlestickChart)
    (kd : KlineData)
    (h : parseF64 kd.open_ = none ∨ parseF64 kd.high = none ∨
         parseF64 kd.low = none ∨ parseF64 kd.close = none) :
    update_from_klineW maW s kd = s := by
  simp [update_from_klineW, from_kline_data_none kd h]

/-- C10 (witness): a kline with non-numeric open field leaves the fresh
chart unchanged. -/
theorem C10_malformed_update_atomic_witness :
    parseF64 badKline.open_ = none ∧
    update_from_klineW 50 (CandlestickChart.new 50) badKline = CandlestickChart.new 50 :=
  ⟨by decide,
    C10_malformed_update_atomic 50 (CandlestickChart.new 50) badKline (Or.inl (by decide))⟩
